import Mathlib

/-!
Verification development for the `future_headlines` Polymarket monitor
(`polymarket_monitor.py`). We shallowly embed the change-detection engine:
the snapshot normalisation, the compliance exclusion, the alert rules
(`should_alert`), the baseline store (`load_history` / `save_history` /
`_atomic_write_json`), the scan loop (`scan_and_alert`) and the report
builder (`build_daily_report`). Python floats are modelled by `ℚ`;
JSON scalars that may be numeric or textual are modelled by `JVal`;
a Python `TypeError` (e.g. comparing a `str` with an `int`) is modelled
by `Except`-failure with `PyError.typeError`.
-/

namespace FutureHeadlines

/-- A scalar JSON value as delivered by the upstream feed: either a number
or a string (the feed is documented to deliver numbers as strings at times). -/
inductive JVal where
  | num (q : ℚ)
  | str (s : String)
deriving DecidableEq, Repr

/-- A Python runtime error surfaced by the embedded code. -/
inductive PyError where
  | typeError
deriving DecidableEq, Repr

/-- One raw upstream record, with exactly the keys the monitor reads.
`none` models an absent key (or JSON `null`, which `dict.get` also maps to
the default via the `or` idiom where applicable). -/
structure Event where
  slug : Option String
  question : Option String
  title : Option String
  volume : Option JVal
  one_day_price_change : Option ℚ
  current_price : Option ℚ
  category : Option String
deriving DecidableEq, Repr

/-- `event.get('slug', '')`. -/
def eventId (e : Event) : String := e.slug.getD ""

/-- `event.get('question') or event.get('title', '')`: a missing or empty
(`falsy`) question falls back to the title, which defaults to `''`. -/
def eventTitle (e : Event) : String :=
  match e.question with
  | some q => if q = "" then e.title.getD "" else q
  | none => e.title.getD ""

/-- `event.get('volume', 0)`. -/
def getVolume (e : Event) : JVal := e.volume.getD (JVal.num 0)

/-- Threshold `self.VOLATILITY_THRESHOLD = 5.0`. -/
def VOLATILITY_THRESHOLD : ℚ := 5

/-- Threshold `self.INCREMENT_THRESHOLD = 2.0`. -/
def INCREMENT_THRESHOLD : ℚ := 2

/-- Threshold `self.HIGH_VOLUME_THRESHOLD = 150000`. -/
def HIGH_VOLUME_THRESHOLD : ℚ := 150000

/-- `self.EXCLUDE_KEYWORDS = ["Taiwan", "台灣", "taiwan"]`. -/
def EXCLUDE_KEYWORDS : List String := ["Taiwan", "台灣", "taiwan"]

/-- Whether `pat` is a prefix of `s`, on character lists. -/
def charsHasPre : List Char → List Char → Bool
  | _, [] => true
  | [], _ :: _ => false
  | a :: s, b :: pat => a == b && charsHasPre s pat

/-- Whether `pat` occurs contiguously inside `s`, on character lists
(Python's `pat in s` substring test). -/
def charsHasSub : List Char → List Char → Bool
  | [], pat => pat.isEmpty
  | a :: s, pat => charsHasPre (a :: s) pat || charsHasSub s pat

/-- Python's `pat in s` substring containment on strings. -/
def strContainsSub (s pat : String) : Bool :=
  charsHasSub s.toList pat.toList

/-- `s.lower()`, character by character. -/
def strLower (s : String) : String :=
  String.mk (s.toList.map Char.toLower)

/-- `should_exclude`: `any(keyword.lower() in title.lower() for keyword in
EXCLUDE_KEYWORDS)`. -/
def should_exclude (title : String) : Bool :=
  EXCLUDE_KEYWORDS.any fun keyword => strContainsSub (strLower title) (strLower keyword)

/-- `calculate_delta`: `None` coerces to `0.0`, otherwise
`one_day_price_change * 100`. -/
def calculate_delta (one_day_price_change : Option ℚ) : ℚ :=
  match one_day_price_change with
  | none => 0
  | some c => c * 100

/-- A record of the persisted history mapping. `load_history` performs no
validation, so every field may be absent; `should_alert` reads
`record.get('delta', 0.0)`. -/
structure HRecord where
  delta : Option ℚ
  volume : Option JVal
  title : Option String
  last_updated : Option String
deriving DecidableEq, Repr

/-- The in-memory history: a Python `dict` keyed by market id, modelled as
an insertion-ordered association list with unique keys. -/
abbrev Hist := List (String × HRecord)

/-- `d[k]`-style lookup (`k in d` is `(dictGet d k).isSome`). -/
def dictGet (d : Hist) (k : String) : Option HRecord :=
  (d.find? fun p => p.1 == k).map (·.2)

/-- `d[k] = v`: overwrite in place when the key exists, append otherwise
(Python dict update semantics; keys are unique). -/
def dictInsert (d : Hist) (k : String) (v : HRecord) : Hist :=
  match d with
  | [] => [(k, v)]
  | p :: rest => if p.1 == k then (k, v) :: rest else p :: dictInsert rest k v

/-- The key list of a history dict. -/
def dictKeys (d : Hist) : List String := d.map (·.1)

/-- The result triple of `should_alert`:
`(should_alert, alert_type, delta_change)`. -/
abbrev AlertTriple := Bool × String × Option ℚ

/-- The `(False, "", None)` result: no alert. -/
def noAlertR : AlertTriple := (false, "", none)

/-- The `(True, "high_volume", None)` result: the spec's `NewHighVolume`. -/
def highVolumeR : AlertTriple := (true, "high_volume", none)

/-- The `(True, "new_event", None)` result: the spec's `NewVolatility`
(a new market whose own delta crosses the volatility threshold). -/
def newEventR : AlertTriple := (true, "new_event", none)

/-- The `(True, "new_volatility", delta_change)` result: the spec's
`IncrementalMove delta_change`. -/
def incrementalR (delta_change : ℚ) : AlertTriple :=
  (true, "new_volatility", some delta_change)

/-- `should_alert(event, history)`. Faithful to the source:
daily mode short-circuits, then compliance exclusion, then the three
threshold checks in priority order. `volume >= HIGH_VOLUME_THRESHOLD`
raises `TypeError` in Python when the volume is a string; that comparison
is only reached for new events (the `and` short-circuits otherwise). -/
def should_alert (daily_mode : Bool) (e : Event) (history : Hist) :
    Except PyError AlertTriple :=
  if daily_mode then .ok noAlertR
  else
    let event_id := eventId e
    let title := eventTitle e
    let volume := getVolume e
    let current_delta := calculate_delta e.one_day_price_change
    if should_exclude title then .ok noAlertR
    else
      let is_new_event := (dictGet history event_id).isNone
      if is_new_event then
        -- priority 1: `is_new_event and volume >= self.HIGH_VOLUME_THRESHOLD`
        match volume with
        | .str _ => .error .typeError
        | .num v =>
          if v ≥ HIGH_VOLUME_THRESHOLD then .ok highVolumeR
          -- priority 2: `is_new_event` and `abs(current_delta) >= VOLATILITY_THRESHOLD`
          else if |current_delta| ≥ VOLATILITY_THRESHOLD then .ok newEventR
          else .ok noAlertR
      else
        -- priority 3: `not is_new_event`
        let last_record := (dictGet history event_id).getD ⟨none, none, none, none⟩
        let last_delta := last_record.delta.getD 0
        let delta_change := current_delta - last_delta
        if |delta_change| ≥ INCREMENT_THRESHOLD then .ok (incrementalR delta_change)
        else .ok noAlertR

/-! ### Baseline store: JSON persistence -/

/-- A JSON document, as produced by `json.dump` / consumed by `json.load`:
the monitor only ever persists objects of numbers and strings. -/
inductive JsonVal where
  | num (q : ℚ)
  | str (s : String)
  | obj (fields : List (String × JsonVal))

/-- Encode a scalar feed value into JSON. -/
def encodeJVal : JVal → JsonVal
  | .num q => .num q
  | .str s => .str s

/-- Read a scalar feed value back from JSON. -/
def decodeJVal : JsonVal → Option JVal
  | .num q => some (JVal.num q)
  | .str s => some (JVal.str s)
  | .obj _ => none

/-- Read a rational back from JSON. -/
def decodeQ : JsonVal → Option ℚ
  | .num q => some q
  | _ => none

/-- Read a string back from JSON. -/
def decodeStr : JsonVal → Option String
  | .str s => some s
  | _ => none

/-- Emit a key only when the optional field is present. -/
def optField (k : String) (v : Option JsonVal) : List (String × JsonVal) :=
  match v with
  | some j => [(k, j)]
  | none => []

/-- Serialise one history record, emitting exactly its present fields
(`json.dump` of the record dict). -/
def encodeRecord (r : HRecord) : JsonVal :=
  .obj (optField "delta" (r.delta.map JsonVal.num) ++
        optField "volume" (r.volume.map encodeJVal) ++
        optField "title" (r.title.map JsonVal.str) ++
        optField "last_updated" (r.last_updated.map JsonVal.str))

/-- Look an optional typed field up in a JSON object: an absent key yields
`some none`, a present key of the wrong shape fails. -/
def decodeOptField (fields : List (String × JsonVal)) (k : String)
    (parse : JsonVal → Option α) : Option (Option α) :=
  match (fields.find? fun p => p.1 == k).map (·.2) with
  | none => some none
  | some j => (parse j).map some

/-- Parse one history record back from JSON. -/
def decodeRecord : JsonVal → Option HRecord
  | .obj fields => do
      let d ← decodeOptField fields "delta" decodeQ
      let v ← decodeOptField fields "volume" decodeJVal
      let t ← decodeOptField fields "title" decodeStr
      let u ← decodeOptField fields "last_updated" decodeStr
      pure ⟨d, v, t, u⟩
  | _ => none

/-- Serialise the whole history dict (`json.dump(data, ...)`). -/
def encodeHistory (h : Hist) : JsonVal :=
  .obj (h.map fun p => (p.1, encodeRecord p.2))

/-- Parse the entries of a persisted history object. -/
def decodeEntries : List (String × JsonVal) → Option Hist
  | [] => some []
  | (k, j) :: rest =>
      match decodeRecord j, decodeEntries rest with
      | some r, some h => some ((k, r) :: h)
      | _, _ => none

/-- Parse a persisted JSON document into a history dict (`json.load`). -/
def decodeHistory : JsonVal → Option Hist
  | .obj fields => decodeEntries fields
  | _ => none

/-- The state of the baseline directory: the content under the real file
name and the content under the temporary name, `none` when absent. -/
structure FS where
  real : Option JsonVal
  tmp : Option JsonVal

/-- `load_history`: an absent file yields `{}`; parse failure also falls
back to `{}` (`except json.JSONDecodeError: return {}`). -/
def load_history (fs : FS) : Hist :=
  match fs.real with
  | none => []
  | some j => (decodeHistory j).getD []

/-- `save_history` / the success path of `_atomic_write_json`: the
serialised data is written to a temp file, fsynced and renamed over the
real name, leaving no temp file behind. -/
def save_history (h : Hist) (_fs : FS) : FS :=
  { real := some (encodeHistory h), tmp := none }

/-! ### Atomic write: failure-injected trace -/

/-- Where an injected I/O failure strikes inside `_atomic_write_json`
(`noFail` = the write succeeds). -/
inductive FailPoint where
  | duringDump
  | duringFsync
  | duringReplace
  | noFail
deriving DecidableEq, Repr

/-- The directory state after `json.dump` to the temp file: complete on
success, an incomplete byte prefix when the dump is interrupted. The real
file is untouched either way. -/
def tmpAfterDump (data : Hist) (fs : FS) (interrupted : Bool) : FS :=
  if interrupted then { fs with tmp := some (JsonVal.str "<truncated bytes>") }
  else { fs with tmp := some (encodeHistory data) }

/-- `_atomic_write_json(data)` with a failure injected at `failAt`
(`removeFails` = the best-effort `os.remove` in the `except` block itself
fails, which the code swallows). Returns the visible directory states in
order, the final state, and whether the call raised. -/
def atomic_write_json (data : Hist) (fs : FS) (failAt : FailPoint)
    (removeFails : Bool) : List FS × FS × Bool :=
  -- `tempfile.mkstemp` creates an empty temp file
  let s1 : FS := { fs with tmp := some (JsonVal.str "") }
  match failAt with
  | .duringDump =>
      let s2 := tmpAfterDump data fs true
      let s3 := if removeFails then s2 else { s2 with tmp := none }
      ([fs, s1, s2, s3], s3, true)
  | .duringFsync =>
      let s2 := tmpAfterDump data fs false
      let s3 := if removeFails then s2 else { s2 with tmp := none }
      ([fs, s1, s2, s3], s3, true)
  | .duringReplace =>
      -- `os.replace` is atomic: a failed rename leaves the target untouched
      let s2 := tmpAfterDump data fs false
      let s3 := if removeFails then s2 else { s2 with tmp := none }
      ([fs, s1, s2, s3], s3, true)
  | .noFail =>
      let s2 := tmpAfterDump data fs false
      let s3 : FS := { real := some (encodeHistory data), tmp := none }
      ([fs, s1, s2, s3], s3, false)

/-! ### The scan loop `scan_and_alert` -/

/-- The record written into the history for one event during a scan:
`{'delta': current_delta, 'volume': event.get('volume', 0),
'title': title, 'last_updated': now}`. -/
def mkRecord (now : String) (e : Event) : HRecord :=
  { delta := some (calculate_delta e.one_day_price_change)
    volume := some (getVolume e)
    title := some (eventTitle e)
    last_updated := some now }

/-- An alert emitted by a scan: the event plus the alert type and the
optional incremental change handed to the notifier. -/
abbrev Alert := Event × String × Option ℚ

/-- The outcome of one `scan_and_alert` call: the alerts emitted, the
directory state after the scan, and the `is_cold_start` flag afterwards. -/
structure ScanResult where
  alerts : List Alert
  fs : FS
  coldStart : Bool

/-- The cold-start baseline: one record per event with a non-empty id and
a non-excluded title (`if event_id and not self.should_exclude(title)`),
built from scratch. -/
def coldHistory (now : String) (events : List Event) : Hist :=
  events.foldl
    (fun h e =>
      if eventId e ≠ "" ∧ ¬ should_exclude (eventTitle e) then
        dictInsert h (eventId e) (mkRecord now e)
      else h)
    []

/-- The cold-start branch of `scan_and_alert`: build the baseline, save
it, emit nothing, clear `is_cold_start`. -/
def coldScan (now : String) (events : List Event) (fs : FS) : ScanResult :=
  { alerts := [], fs := save_history (coldHistory now events) fs, coldStart := false }

/-- The daily-report branch of `scan_and_alert`: update the history copy
with every event that has a non-empty id, save it, emit no per-market
alerts (the digest itself goes through `build_daily_report`). -/
def dailyScan (coldStart : Bool) (now : String) (events : List Event)
    (fs : FS) : ScanResult :=
  let updated := events.foldl
    (fun h e =>
      if eventId e = "" then h
      else dictInsert h (eventId e) (mkRecord now e))
    (load_history fs)
  { alerts := [], fs := save_history updated fs, coldStart := coldStart }

/-- The per-event loop of the normal scan: skip empty ids, update the
history copy unconditionally, and decide alerts against the pre-scan
`history` (never against the in-progress copy). A `TypeError` from
`should_alert` propagates and aborts the scan. -/
def normalLoop (now : String) (history : Hist) :
    List Event → List Alert → Hist → Except PyError (List Alert × Hist)
  | [], alerts, updated => .ok (alerts, updated)
  | e :: rest, alerts, updated =>
      if eventId e = "" then normalLoop now history rest alerts updated
      else
        let updated' := dictInsert updated (eventId e) (mkRecord now e)
        match should_alert false e history with
        | .error err => .error err
        | .ok (true, ty, dc) =>
            normalLoop now history rest (alerts ++ [(e, ty, dc)]) updated'
        | .ok (false, _, _) => normalLoop now history rest alerts updated'

/-- The normal (threshold) branch of `scan_and_alert`: run the loop over
a copy of the pre-scan history, then save the updated history. -/
def normalScan (now : String) (events : List Event) (fs : FS) :
    Except PyError ScanResult :=
  let history := load_history fs
  match normalLoop now history events [] history with
  | .error err => .error err
  | .ok (alerts, updated) =>
      .ok { alerts := alerts, fs := save_history updated fs, coldStart := false }

/-- `scan_and_alert`: an empty fetch aborts without touching the baseline;
then cold start (unless daily mode), then daily mode, then the normal
scan. `now` stands for `datetime.now().isoformat()`. -/
def scan_and_alert (daily_mode coldStart : Bool) (now : String)
    (events : List Event) (fs : FS) : Except PyError ScanResult :=
  if events.isEmpty then .ok { alerts := [], fs := fs, coldStart := coldStart }
  else if coldStart ∧ ¬ daily_mode then .ok (coldScan now events fs)
  else if daily_mode then .ok (dailyScan coldStart now events fs)
  else normalScan now events fs

/-! ### Report builder `build_daily_report` -/

/-- One filtered entry of the daily report, before the numeric check that
Python performs implicitly when sorting: `volume` is still raw. -/
structure RawItem where
  title : String
  volume : JVal
  change_pct : ℚ
  prob : ℚ
  slug : String
deriving DecidableEq, Repr

/-- One report entry with a numeric volume. -/
structure ReportItem where
  title : String
  volume : ℚ
  change_pct : ℚ
  prob : ℚ
  slug : String
deriving DecidableEq, Repr

/-- `ev.get('volume', 0) or 0`: a falsy value (`0`, `0.0`, `''`) becomes
`0`, everything else is kept as is. -/
def pyOrZero : JVal → JVal
  | .num q => if q = 0 then .num 0 else .num q
  | .str s => if s = "" then .num 0 else .str s

/-- The compliance-filtered item list of `build_daily_report`. -/
def reportFiltered (events : List Event) : List RawItem :=
  events.foldr
    (fun ev acc =>
      let title := eventTitle ev
      if should_exclude title then acc
      else
        { title := title
          volume := pyOrZero (getVolume ev)
          change_pct := calculate_delta ev.one_day_price_change
          prob := (ev.current_price.getD 0) * 100
          slug := eventId ev } :: acc)
    []

/-- Require every volume to be numeric; a textual volume models the
`TypeError` Python raises when `sorted` (or the K/M formatter) compares a
`str` volume with a number. -/
def reportNumeric : List RawItem → Option (List ReportItem)
  | [] => some []
  | it :: rest =>
      match it.volume, reportNumeric rest with
      | .num q, some l => some (⟨it.title, q, it.change_pct, it.prob, it.slug⟩ :: l)
      | _, _ => none

/-- The two ranked sections of the daily report. -/
structure DailyReport where
  topVolume : List ReportItem
  topGainers : List ReportItem
deriving DecidableEq, Repr

/-- `sorted(filtered, key=key, reverse=True)`: descending stable sort. -/
def sortDescBy (key : ReportItem → ℚ) (l : List ReportItem) : List ReportItem :=
  l.mergeSort fun a b => decide (key b ≤ key a)

/-- `build_daily_report`: `ok none` models the `""` returned for an empty
input or a fully filtered-out input; otherwise the top 5 by volume and
the top 3 by signed percentage change. -/
def build_daily_report (events : List Event) :
    Except PyError (Option DailyReport) :=
  if events.isEmpty then .ok none
  else
    let filtered := reportFiltered events
    if filtered.isEmpty then .ok none
    else
      match reportNumeric filtered with
      | none => .error .typeError
      | some items =>
          .ok (some { topVolume := (sortDescBy (·.volume) items).take 5
                      topGainers := (sortDescBy (·.change_pct) items).take 3 })

/-! ### Concrete inputs used by witnesses and counterexamples -/

/-- A new market with a high volume and no price change. -/
def evNew : Event :=
  ⟨some "m1", some "Big market", none, some (.num 200000), none, none, none⟩

/-- A known market with a small volume and no price change. -/
def evIncr : Event :=
  ⟨some "m3", some "Quiet market", none, some (.num 100), none, none, none⟩

/-- A baseline that already knows `evIncr` with delta 4. -/
def histIncr : Hist :=
  [("m3", ⟨some 4, some (.num 50), some "Quiet market", some "t0"⟩)]

/-- A market with no question and no title: its title normalises to `""`. -/
def evEmptyTitle : Event :=
  ⟨some "m5", none, none, some (.num 200000), none, none, none⟩

/-- An excluded market whose volume is a text placeholder. -/
def evExcluded : Event :=
  ⟨some "tw2", some "taiwan referendum", none, some (.str "N/A"), none, none, none⟩

/-- A non-excluded new market whose volume is a text placeholder. -/
def evBadVolume : Event :=
  ⟨some "m6", some "Some market", none, some (.str "N/A"), none, none, none⟩

/-- An excluded market with a high volume. -/
def evTaiwan : Event :=
  ⟨some "tw", some "Taiwan election", none, some (.num 500000), none, none, none⟩

/-- An empty baseline directory (no file persisted yet). -/
def fsEmpty : FS := ⟨none, none⟩

/-- A pre-existing baseline record. -/
def recOld : HRecord := ⟨some 0, some (.num 1), some "Old market", some "t0"⟩

/-- A directory persisting a baseline with the single key `"old"`. -/
def fsOld : FS := ⟨some (encodeHistory [("old", recOld)]), none⟩

/-- The spec's report example: volumes `[500, 2000000, 10]`,
deltas `[1.0, -2.0, 9.0]`. -/
def exEvents : List Event :=
  [⟨some "a", some "A", none, some (.num 500), some (1/100), none, none⟩,
   ⟨some "b", some "B", none, some (.num 2000000), some (-2/100), none, none⟩,
   ⟨some "c", some "C", none, some (.num 10), some (9/100), none, none⟩]

/-- The filtered, numeric items of `exEvents`. -/
def exItems : List ReportItem :=
  [⟨"A", 500, calculate_delta (some (1/100)), 0 * 100, "a"⟩,
   ⟨"B", 2000000, calculate_delta (some (-2/100)), 0 * 100, "b"⟩,
   ⟨"C", 10, calculate_delta (some (9/100)), 0 * 100, "c"⟩]

/-! ## Helper lemmas -/

theorem dictKeys_nil : dictKeys [] = [] := rfl

theorem dictKeys_cons (p : String × HRecord) (rest : Hist) :
    dictKeys (p :: rest) = p.1 :: dictKeys rest := rfl

theorem dictKeys_dictInsert_self (d : Hist) (k : String) (v : HRecord) :
    k ∈ dictKeys (dictInsert d k v) := by
  induction d with
  | nil => simp [dictInsert, dictKeys_cons, dictKeys_nil]
  | cons p rest ih =>
      by_cases h : p.1 == k
      · simp [dictInsert, h, dictKeys_cons]
      · rw [dictInsert, if_neg h, dictKeys_cons]
        exact List.mem_cons_of_mem _ ih

theorem dictKeys_dictInsert_mono (d : Hist) (k a : String) (v : HRecord)
    (ha : a ∈ dictKeys d) : a ∈ dictKeys (dictInsert d k v) := by
  induction d with
  | nil => simp [dictKeys_nil] at ha
  | cons p rest ih =>
      rw [dictKeys_cons] at ha
      by_cases h : p.1 == k
      · have hk : p.1 = k := by simpa using h
        rw [dictInsert, if_pos h, dictKeys_cons]
        rcases List.mem_cons.mp ha with h1 | h1
        · rw [h1, hk]; exact List.mem_cons_self _ _
        · exact List.mem_cons_of_mem _ h1
      · rw [dictInsert, if_neg h, dictKeys_cons]
        rcases List.mem_cons.mp ha with h1 | h1
        · exact h1 ▸ List.mem_cons_self _ _
        · exact List.mem_cons_of_mem _ (ih h1)

theorem dictKeys_dictInsert_sub (d : Hist) (k a : String) (v : HRecord)
    (ha : a ∈ dictKeys (dictInsert d k v)) : a = k ∨ a ∈ dictKeys d := by
  induction d with
  | nil =>
      rw [dictInsert] at ha
      simpa [dictKeys_cons, dictKeys_nil] using ha
  | cons p rest ih =>
      by_cases h : p.1 == k
      · rw [dictInsert, if_pos h, dictKeys_cons] at ha
        rcases List.mem_cons.mp ha with h1 | h1
        · exact Or.inl h1
        · exact Or.inr (by rw [dictKeys_cons]; exact List.mem_cons_of_mem _ h1)
      · rw [dictInsert, if_neg h, dictKeys_cons] at ha
        rcases List.mem_cons.mp ha with h1 | h1
        · exact Or.inr (by rw [dictKeys_cons]; exact h1 ▸ List.mem_cons_self _ _)
        · rcases ih h1 with h2 | h2
          · exact Or.inl h2
          · exact Or.inr (by rw [dictKeys_cons]; exact List.mem_cons_of_mem _ h2)

theorem decodeJVal_encodeJVal (v : JVal) : decodeJVal (encodeJVal v) = some v := by
  cases v <;> rfl

theorem decodeRecord_encodeRecord (r : HRecord) :
    decodeRecord (encodeRecord r) = some r := by
  obtain ⟨d, v, t, u⟩ := r
  rcases v with _ | jv
  · cases d <;> cases t <;> cases u <;> rfl
  · cases jv <;> cases d <;> cases t <;> cases u <;> rfl

theorem decodeEntries_encode (h : Hist) :
    decodeEntries (h.map fun p => (p.1, encodeRecord p.2)) = some h := by
  induction h with
  | nil => rfl
  | cons p rest ih =>
      simp [decodeEntries, decodeRecord_encodeRecord, ih]

theorem decodeHistory_encodeHistory (h : Hist) :
    decodeHistory (encodeHistory h) = some h := by
  simpa [decodeHistory, encodeHistory] using decodeEntries_encode h

theorem load_history_save_history (h : Hist) (fs : FS) :
    load_history (save_history h fs) = h := by
  simp [load_history, save_history, decodeHistory_encodeHistory]

/-! ## Claim theorems -/

/-- Claim C1: for every baseline and every snapshot whose id is absent from
it (title not excluded, digest mode off, numeric volume), the decision is
`NewHighVolume` (`high_volume`) iff the volume reaches 150000; otherwise it
is `NewVolatility` (the code's `new_event` tag) iff the absolute delta
reaches 5.0; otherwise `NoAlert` — in that strict priority order. -/
theorem new_market_thresholds (e : Event) (history : Hist) (v : ℚ)
    (hnew : dictGet history (eventId e) = none)
    (hexcl : should_exclude (eventTitle e) = false)
    (hvol : getVolume e = JVal.num v) :
    (should_alert false e history = .ok highVolumeR ↔ v ≥ HIGH_VOLUME_THRESHOLD) ∧
    (¬ v ≥ HIGH_VOLUME_THRESHOLD →
      (should_alert false e history = .ok newEventR ↔
        |calculate_delta e.one_day_price_change| ≥ VOLATILITY_THRESHOLD)) ∧
    (¬ v ≥ HIGH_VOLUME_THRESHOLD →
      ¬ |calculate_delta e.one_day_price_change| ≥ VOLATILITY_THRESHOLD →
      should_alert false e history = .ok noAlertR) := by
  by_cases hv : v ≥ HIGH_VOLUME_THRESHOLD <;>
    by_cases hd : |calculate_delta e.one_day_price_change| ≥ VOLATILITY_THRESHOLD <;>
      simp [should_alert, hnew, hexcl, hvol, hv, hd, highVolumeR, newEventR, noAlertR]

/-- Witness for C1 at a concrete new high-volume market. -/
theorem new_market_thresholds_witness :
    dictGet [] (eventId evNew) = none ∧
    should_exclude (eventTitle evNew) = false ∧
    getVolume evNew = JVal.num 200000 ∧
    (should_alert false evNew [] = .ok highVolumeR ↔
      (200000 : ℚ) ≥ HIGH_VOLUME_THRESHOLD) :=
  ⟨rfl, rfl, rfl, (new_market_thresholds evNew [] 200000 rfl rfl rfl).1⟩

/-- Claim C2: for every baseline and every snapshot whose id is present
(title not excluded, digest mode off), the decision is
`IncrementalMove (current_delta - baseline_delta)` iff the absolute signed
difference reaches 2.0, and `NoAlert` otherwise. -/
theorem incremental_move_threshold (e : Event) (history : Hist)
    (r : HRecord) (ld : ℚ)
    (hfound : dictGet history (eventId e) = some r)
    (hdelta : r.delta = some ld)
    (hexcl : should_exclude (eventTitle e) = false) :
    (should_alert false e history =
        .ok (incrementalR (calculate_delta e.one_day_price_change - ld)) ↔
      |calculate_delta e.one_day_price_change - ld| ≥ INCREMENT_THRESHOLD) ∧
    (¬ |calculate_delta e.one_day_price_change - ld| ≥ INCREMENT_THRESHOLD →
      should_alert false e history = .ok noAlertR) := by
  by_cases hc : |calculate_delta e.one_day_price_change - ld| ≥ INCREMENT_THRESHOLD <;>
    simp [should_alert, hfound, hdelta, hexcl, hc, incrementalR, noAlertR]

/-- Witness for C2 at a concrete known market whose delta dropped by 4. -/
theorem incremental_move_threshold_witness :
    dictGet histIncr (eventId evIncr) =
      some ⟨some 4, some (.num 50), some "Quiet market", some "t0"⟩ ∧
    should_exclude (eventTitle evIncr) = false ∧
    (should_alert false evIncr histIncr =
        .ok (incrementalR (calculate_delta evIncr.one_day_price_change - 4)) ↔
      |calculate_delta evIncr.one_day_price_change - 4| ≥ INCREMENT_THRESHOLD) :=
  ⟨rfl, rfl,
    (incremental_move_threshold evIncr histIncr
      ⟨some 4, some (.num 50), some "Quiet market", some "t0"⟩ 4 rfl rfl rfl).1⟩

/-- Counterexample to claim C3: a snapshot whose title is missing (so it
normalises to `""`) is NOT suppressed — with a high volume and a fresh id
it is classified `high_volume`, not `NoAlert`. -/
theorem empty_title_not_suppressed :
    eventTitle evEmptyTitle = "" ∧
    should_alert false evEmptyTitle [] = .ok highVolumeR ∧
    highVolumeR ≠ noAlertR := by
  refine ⟨rfl, rfl, ?_⟩
  intro h
  simpa [highVolumeR, noAlertR] using congrArg (fun t => t.1) h

/-- Claim C3 as amended: a title containing a denylisted term
(case-insensitive substring) yields `NoAlert` regardless of volume and
delta, and the exclusion runs before every threshold check (it suppresses
even records whose volume would make the threshold comparison raise). A
missing/empty title, however, is NOT treated as excluded. -/
theorem exclusion_precedes_thresholds (daily : Bool) (e : Event) (history : Hist)
    (hexcl : should_exclude (eventTitle e) = true) :
    should_alert daily e history = .ok noAlertR := by
  cases daily <;> simp [should_alert, hexcl]

/-- Witness for the amended C3: an excluded market whose volume is the
string `"N/A"` (which would raise in the threshold comparison) is still
cleanly suppressed. -/
theorem exclusion_precedes_thresholds_witness :
    should_exclude (eventTitle evExcluded) = true ∧
    getVolume evExcluded = JVal.str "N/A" ∧
    should_alert false evExcluded [] = .ok noAlertR :=
  ⟨rfl, rfl, exclusion_precedes_thresholds false evExcluded [] rfl⟩

/-- Claim C4 (code bug): a new, non-excluded record whose volume field
holds the text placeholder `"N/A"` makes `should_alert` raise `TypeError`
at `volume >= HIGH_VOLUME_THRESHOLD` — the code never coerces a
non-numeric volume to 0.0, contradicting the documented behaviour. -/
theorem nonnumeric_volume_raises :
    getVolume evBadVolume = JVal.str "N/A" ∧
    should_alert false evBadVolume [] = .error PyError.typeError :=
  ⟨rfl, rfl⟩

/-- Claim C7: baseline persistence round-trips exactly —
`load(save(B)) = B` for every baseline mapping. -/
theorem baseline_roundtrip (B : Hist) (fs : FS) :
    load_history (save_history B fs) = B :=
  load_history_save_history B fs

/-- Claim C8: the baseline write is atomic and fails hard. Whatever the
injected failure point: every directory state visible during the write
holds, under the real file name, either the old baseline or the complete
new one (never a partial write); on failure the error is re-raised, the
old baseline file is untouched, and when the best-effort `os.remove`
succeeds the partial temp file is cleaned up; on success the new baseline
is fully in place. -/
theorem atomic_write_safety (data : Hist) (fs : FS) (failAt : FailPoint)
    (removeFails : Bool) :
    (∀ s ∈ (atomic_write_json data fs failAt removeFails).1,
        s.real = fs.real ∨ s.real = some (encodeHistory data)) ∧
    (failAt ≠ FailPoint.noFail →
      (atomic_write_json data fs failAt removeFails).2.2 = true ∧
      (atomic_write_json data fs failAt removeFails).2.1.real = fs.real ∧
      (removeFails = false →
        (atomic_write_json data fs failAt removeFails).2.1.tmp = none)) ∧
    (failAt = FailPoint.noFail →
      (atomic_write_json data fs failAt removeFails).2.2 = false ∧
      (atomic_write_json data fs failAt removeFails).2.1.real =
        some (encodeHistory data)) := by
  cases failAt <;> cases removeFails <;>
    simp [atomic_write_json, tmpAfterDump]

/-- Witness for C8: a dump interrupted over a one-record baseline raises
and leaves the persisted file untouched. -/
theorem atomic_write_safety_witness :
    FailPoint.duringDump ≠ FailPoint.noFail ∧
    (atomic_write_json [] fsOld .duringDump false).2.2 = true ∧
    (atomic_write_json [] fsOld .duringDump false).2.1.real = fsOld.real := by
  have h := (atomic_write_safety [] fsOld .duringDump false).2.1 (by simp)
  exact ⟨by simp, h.1, h.2.1⟩

/-! ## Scan-loop lemmas -/

theorem normalLoop_ok (now : String) (history : Hist) :
    ∀ (events : List Event) (alerts0 : List Alert) (upd0 : Hist)
      (alerts1 : List Alert) (upd1 : Hist),
      normalLoop now history events alerts0 upd0 = .ok (alerts1, upd1) →
      (∀ a ∈ alerts1, a ∈ alerts0 ∨
        should_alert false a.1 history = .ok (true, a.2.1, a.2.2)) ∧
      (∀ e ∈ events, eventId e ≠ "" → eventId e ∈ dictKeys upd1) ∧
      (∀ x ∈ dictKeys upd0, x ∈ dictKeys upd1)
  | [], alerts0, upd0, alerts1, upd1 => by
      intro h
      rw [normalLoop] at h
      obtain ⟨h1, h2⟩ : alerts0 = alerts1 ∧ upd0 = upd1 := by
        constructor <;> cases h <;> rfl
      subst h1; subst h2
      exact ⟨fun a ha => Or.inl ha, fun e he => absurd he (List.not_mem_nil e),
        fun x hx => hx⟩
  | e :: rest, alerts0, upd0, alerts1, upd1 => by
      intro h
      rw [normalLoop] at h
      by_cases hid : eventId e = ""
      · rw [if_pos hid] at h
        obtain ⟨ha, hm, hk⟩ := normalLoop_ok now history rest alerts0 upd0 alerts1 upd1 h
        refine ⟨ha, ?_, hk⟩
        intro e' he' hne
        rcases List.mem_cons.mp he' with h1 | h1
        · exact absurd (h1 ▸ hne) (by simp [hid])
        · exact hm e' h1 hne
      · rw [if_neg hid] at h
        rcases hsa : should_alert false e history with err | trip
        · rw [hsa] at h; cases h
        · rw [hsa] at h
          obtain ⟨b, ty, dc⟩ := trip
          cases b
          · obtain ⟨ha, hm, hk⟩ :=
              normalLoop_ok now history rest alerts0
                (dictInsert upd0 (eventId e) (mkRecord now e)) alerts1 upd1 h
            refine ⟨ha, ?_, ?_⟩
            · intro e' he' hne
              rcases List.mem_cons.mp he' with h1 | h1
              · subst h1
                exact hk _ (dictKeys_dictInsert_self upd0 (eventId e') (mkRecord now e'))
              · exact hm e' h1 hne
            · intro x hx
              exact hk x (dictKeys_dictInsert_mono upd0 (eventId e) x (mkRecord now e) hx)
          · obtain ⟨ha, hm, hk⟩ :=
              normalLoop_ok now history rest (alerts0 ++ [(e, ty, dc)])
                (dictInsert upd0 (eventId e) (mkRecord now e)) alerts1 upd1 h
            refine ⟨?_, ?_, ?_⟩
            · intro a haa
              rcases ha a haa with h1 | h1
              · rcases List.mem_append.mp h1 with h2 | h2
                · exact Or.inl h2
                · have : a = (e, ty, dc) := by simpa using h2
                  subst this
                  exact Or.inr hsa
              · exact Or.inr h1
            · intro e' he' hne
              rcases List.mem_cons.mp he' with h1 | h1
              · subst h1
                exact hk _ (dictKeys_dictInsert_self upd0 (eventId e') (mkRecord now e'))
              · exact hm e' h1 hne
            · intro x hx
              exact hk x (dictKeys_dictInsert_mono upd0 (eventId e) x (mkRecord now e) hx)

theorem dailyFold_keys_mono (now : String) :
    ∀ (events : List Event) (h0 : Hist) (x : String), x ∈ dictKeys h0 →
      x ∈ dictKeys (events.foldl
        (fun h e => if eventId e = "" then h
          else dictInsert h (eventId e) (mkRecord now e)) h0)
  | [], h0, x => fun hx => hx
  | e :: rest, h0, x => by
      intro hx
      rw [List.foldl_cons]
      apply dailyFold_keys_mono now rest
      by_cases hid : eventId e = ""
      · simpa [hid] using hx
      · rw [if_neg hid]
        exact dictKeys_dictInsert_mono h0 (eventId e) x (mkRecord now e) hx

theorem coldFold_keys_mono (now : String) :
    ∀ (events : List Event) (h0 : Hist) (x : String), x ∈ dictKeys h0 →
      x ∈ dictKeys (events.foldl
        (fun h e =>
          if eventId e ≠ "" ∧ ¬ should_exclude (eventTitle e) then
            dictInsert h (eventId e) (mkRecord now e)
          else h) h0)
  | [], h0, x => fun hx => hx
  | e :: rest, h0, x => by
      intro hx
      rw [List.foldl_cons]
      apply coldFold_keys_mono now rest
      by_cases hc : eventId e ≠ "" ∧ ¬ should_exclude (eventTitle e)
      · rw [if_pos hc]
        exact dictKeys_dictInsert_mono h0 (eventId e) x (mkRecord now e) hx
      · rwa [if_neg hc]

theorem coldFold_mem (now : String) :
    ∀ (events : List Event) (h0 : Hist) (e : Event), e ∈ events →
      eventId e ≠ "" → should_exclude (eventTitle e) = false →
      eventId e ∈ dictKeys (events.foldl
        (fun h ev =>
          if eventId ev ≠ "" ∧ ¬ should_exclude (eventTitle ev) then
            dictInsert h (eventId ev) (mkRecord now ev)
          else h) h0)
  | [], h0, e => by intro he; exact absurd he (List.not_mem_nil e)
  | p :: rest, h0, e => by
      intro he hne hexcl
      rw [List.foldl_cons]
      rcases List.mem_cons.mp he with h1 | h1
      · subst h1
        apply coldFold_keys_mono now rest
        rw [if_pos ⟨hne, by simp [hexcl]⟩]
        exact dictKeys_dictInsert_self h0 (eventId e) (mkRecord now e)
      · exact coldFold_mem now rest _ e h1 hne hexcl

theorem coldFold_sub (now : String) :
    ∀ (events : List Event) (h0 : Hist) (k : String),
      k ∈ dictKeys (events.foldl
        (fun h ev =>
          if eventId ev ≠ "" ∧ ¬ should_exclude (eventTitle ev) then
            dictInsert h (eventId ev) (mkRecord now ev)
          else h) h0) →
      k ∈ dictKeys h0 ∨ ∃ e ∈ events, eventId e = k
  | [], h0, k => fun hk => Or.inl hk
  | p :: rest, h0, k => by
      intro hk
      rw [List.foldl_cons] at hk
      rcases coldFold_sub now rest _ k hk with h1 | h1
      · by_cases hc : eventId p ≠ "" ∧ ¬ should_exclude (eventTitle p)
        · rw [if_pos hc] at h1
          rcases dictKeys_dictInsert_sub h0 (eventId p) k (mkRecord now p) h1 with h2 | h2
          · exact Or.inr ⟨p, List.mem_cons_self _ _, h2.symm⟩
          · exact Or.inl h2
        · rw [if_neg hc] at h1
          exact Or.inl h1
      · obtain ⟨e, he, hek⟩ := h1
        exact Or.inr ⟨e, List.mem_cons_of_mem _ he, hek⟩

/-- Claim C6: in a normal (non-cold, non-digest) scan that completes,
every market id seen (non-empty ids) is in the persisted baseline
afterwards, whether or not an alert fired; and every alert emitted was
decided by `should_alert` against the baseline as loaded at scan start,
never against sibling updates made earlier in the same scan. -/
theorem scan_updates_baseline_prescan_decisions (now : String)
    (events : List Event) (fs : FS) (r : ScanResult)
    (h : scan_and_alert false false now events fs = .ok r) :
    (∀ e ∈ events, eventId e ≠ "" →
      eventId e ∈ dictKeys (load_history r.fs)) ∧
    (∀ a ∈ r.alerts,
      should_alert false a.1 (load_history fs) = .ok (true, a.2.1, a.2.2)) := by
  rw [scan_and_alert] at h
  by_cases hev : events.isEmpty
  · rw [if_pos hev] at h
    cases h
    have : events = [] := List.isEmpty_iff.mp hev
    subst this
    exact ⟨fun e he => absurd he (List.not_mem_nil e),
      fun a ha => absurd ha (List.not_mem_nil a)⟩
  · rw [if_neg hev] at h
    simp only [Bool.false_eq_true, false_and, if_false, if_neg] at h
    rw [normalScan] at h
    rcases hloop : normalLoop now (load_history fs) events [] (load_history fs)
      with err | ⟨alerts, upd⟩
    · rw [hloop] at h; cases h
    · rw [hloop] at h
      cases h
      obtain ⟨ha, hm, _⟩ :=
        normalLoop_ok now (load_history fs) events [] (load_history fs) alerts upd hloop
      constructor
      · intro e he hne
        simpa [load_history_save_history] using hm e he hne
      · intro a haa
        rcases ha a haa with h1 | h1
        · exact absurd h1 (List.not_mem_nil a)
        · exact h1

/-- Witness for C6: a one-event scan against an empty baseline. -/
theorem scan_updates_baseline_prescan_decisions_witness :
    scan_and_alert false false "t1" [evNew] fsEmpty =
      .ok ⟨[(evNew, "high_volume", none)],
        ⟨some (encodeHistory [("m1", mkRecord "t1" evNew)]), none⟩, false⟩ ∧
    "m1" ∈ dictKeys (load_history
      ⟨some (encodeHistory [("m1", mkRecord "t1" evNew)]), none⟩) := by
  constructor
  · rfl
  · have h := (scan_updates_baseline_prescan_decisions "t1" [evNew] fsEmpty
      ⟨[(evNew, "high_volume", none)],
        ⟨some (encodeHistory [("m1", mkRecord "t1" evNew)]), none⟩, false⟩ rfl).1
    simpa using h evNew (List.mem_cons_self _ _) (by simp [eventId, evNew])

/-- Claim C10: every scan that is not a cold start (normal or digest mode)
only grows the persisted baseline's key set: every pre-scan key survives. -/
theorem baseline_keys_monotone (daily coldStart : Bool) (now : String)
    (events : List Event) (fs : FS) (r : ScanResult)
    (hnc : coldStart = false ∨ daily = true)
    (h : scan_and_alert daily coldStart now events fs = .ok r) :
    ∀ k ∈ dictKeys (load_history fs), k ∈ dictKeys (load_history r.fs) := by
  rw [scan_and_alert] at h
  by_cases hev : events.isEmpty
  · rw [if_pos hev] at h
    cases h
    exact fun k hk => hk
  · rw [if_neg hev] at h
    have hcold : ¬ (coldStart ∧ ¬ daily) := by
      rcases hnc with h1 | h1 <;> simp [h1]
    rw [if_neg hcold] at h
    by_cases hd : daily = true
    · rw [if_pos (by simp [hd])] at h
      cases h
      intro k hk
      simp only [dailyScan, load_history_save_history]
      exact dailyFold_keys_mono now events (load_history fs) k hk
    · rw [if_neg (by simp [hd])] at h
      rw [normalScan] at h
      rcases hloop : normalLoop now (load_history fs) events [] (load_history fs)
        with err | ⟨alerts, upd⟩
      · rw [hloop] at h; cases h
      · rw [hloop] at h
        cases h
        obtain ⟨_, _, hk⟩ :=
          normalLoop_ok now (load_history fs) events [] (load_history fs) alerts upd hloop
        intro k hkk
        simpa [load_history_save_history] using hk k hkk

/-- Witness for C10: a digest-mode scan over a baseline holding `"old"`
keeps `"old"` in the baseline. -/
theorem baseline_keys_monotone_witness :
    (false = false ∨ true = true) ∧
    scan_and_alert true false "t2" [evNew] fsOld =
      .ok (dailyScan false "t2" [evNew] fsOld) ∧
    "old" ∈ dictKeys (load_history (dailyScan false "t2" [evNew] fsOld).fs) := by
  refine ⟨Or.inl rfl, rfl, ?_⟩
  have h := baseline_keys_monotone true false "t2" [evNew] fsOld
    (dailyScan false "t2" [evNew] fsOld) (Or.inl rfl) rfl
  apply h
  simp [fsOld, load_history, decodeHistory_encodeHistory, dictKeys_cons]

/-- Counterexample to claim C5: on a cold start the code only records
events whose id is non-empty AND whose title passes the compliance
exclusion — a fetched market titled "Taiwan election" gets NO baseline
record, so the baseline is not populated with every fetched market. -/
theorem cold_start_skips_excluded :
    eventId evTaiwan = "tw" ∧
    scan_and_alert false true "t0" [evTaiwan] fsEmpty =
      .ok ⟨[], ⟨some (JsonVal.obj []), none⟩, false⟩ ∧
    dictKeys (load_history ⟨some (JsonVal.obj []), none⟩) = [] :=
  ⟨rfl, rfl, rfl⟩

/-- Claim C5 as amended: a cold-start scan over a non-empty fetch emits no
alerts, clears the cold-start flag, and populates the baseline with
exactly the fetched markets that have a non-empty id and a non-excluded
title (markets failing either filter are dropped, not recorded); any
subsequent non-cold scan runs the normal threshold branch. -/
theorem cold_start_populates_filtered (now : String) (events : List Event)
    (fs : FS) (hne : events ≠ []) :
    scan_and_alert false true now events fs = .ok (coldScan now events fs) ∧
    (coldScan now events fs).alerts = [] ∧
    (coldScan now events fs).coldStart = false ∧
    (∀ e ∈ events, eventId e ≠ "" → should_exclude (eventTitle e) = false →
      eventId e ∈ dictKeys (load_history (coldScan now events fs).fs)) ∧
    (∀ k ∈ dictKeys (load_history (coldScan now events fs).fs),
      ∃ e ∈ events, eventId e = k) ∧
    (∀ (now2 : String) (events2 : List Event) (fs2 : FS), events2 ≠ [] →
      scan_and_alert false false now2 events2 fs2 = normalScan now2 events2 fs2) := by
  refine ⟨?_, rfl, rfl, ?_, ?_, ?_⟩
  · rw [scan_and_alert, if_neg (by simpa [List.isEmpty_iff] using hne),
      if_pos (by simp)]
  · intro e he hne' hexcl
    simp only [coldScan, load_history_save_history, coldHistory]
    exact coldFold_mem now events [] e he hne' hexcl
  · intro k hk
    simp only [coldScan, load_history_save_history, coldHistory] at hk
    rcases coldFold_sub now events [] k hk with h1 | h1
    · exact absurd h1 (by simp [dictKeys_nil])
    · exact h1
  · intro now2 events2 fs2 hne2
    rw [scan_and_alert, if_neg (by simpa [List.isEmpty_iff] using hne2)]
    simp

/-- Witness for the amended C5: a cold start over one ordinary market
records it and hands a cleared flag to the next scan. -/
theorem cold_start_populates_filtered_witness :
    ([evNew] ≠ ([] : List Event)) ∧
    scan_and_alert false true "t3" [evNew] fsEmpty =
      .ok (coldScan "t3" [evNew] fsEmpty) ∧
    "m1" ∈ dictKeys (load_history (coldScan "t3" [evNew] fsEmpty).fs) := by
  have h := cold_start_populates_filtered "t3" [evNew] fsEmpty (List.cons_ne_nil _ _)
  refine ⟨List.cons_ne_nil _ _, h.1, ?_⟩
  exact h.2.2.2.1 evNew (List.mem_cons_self _ _) (by simp [eventId, evNew]) rfl

theorem topk_spec (key : ReportItem → ℚ) (items : List ReportItem) (k : Nat) :
    ((sortDescBy key items).take k).length = min k items.length ∧
    ((sortDescBy key items).take k).Pairwise (fun a b => key b ≤ key a) ∧
    ∃ rest, List.Perm items ((sortDescBy key items).take k ++ rest) ∧
      ∀ x ∈ (sortDescBy key items).take k, ∀ y ∈ rest, key y ≤ key x := by
  have htrans : ∀ (a b c : ReportItem),
      (fun a b => decide (key b ≤ key a)) a b = true →
      (fun a b => decide (key b ≤ key a)) b c = true →
      (fun a b => decide (key b ≤ key a)) a c = true := by
    intro a b c hab hbc
    simp only [decide_eq_true_eq] at hab hbc ⊢
    exact le_trans hbc hab
  have htotal : ∀ (a b : ReportItem),
      ((fun a b => decide (key b ≤ key a)) a b ||
       (fun a b => decide (key b ≤ key a)) b a) = true := by
    intro a b
    simpa using le_total (key b) (key a)
  have hsorted : (sortDescBy key items).Pairwise (fun a b => key b ≤ key a) := by
    have h := @List.sorted_mergeSort ReportItem
      (fun a b => decide (key b ≤ key a)) htrans htotal items
    exact h.imp fun hab => by simpa using hab
  have hperm : List.Perm (sortDescBy key items) items :=
    List.mergeSort_perm items _
  have hsplit : (sortDescBy key items).take k ++ (sortDescBy key items).drop k =
      sortDescBy key items := List.take_append_drop k _
  refine ⟨?_, ?_, (sortDescBy key items).drop k, ?_, ?_⟩
  · simp [sortDescBy]
  · exact List.Pairwise.sublist (List.take_sublist k _) hsorted
  · rw [hsplit]
    exact hperm.symm
  · intro x hx y hy
    have hp : ((sortDescBy key items).take k ++
        (sortDescBy key items).drop k).Pairwise (fun a b => key b ≤ key a) := by
      rw [hsplit]; exact hsorted
    exact (List.pairwise_append.mp hp).2.2 x hx y hy

/-- Claim C9: `build_daily_report` returns an empty report on an empty
input without failing, and on any input whose filtered snapshot set is
non-empty (and numeric) the attention section is the top 5 by volume in
descending order and the momentum section is the top 3 by signed delta in
descending order (each section is a maximal, descending-sorted selection
from the filtered items). -/
theorem daily_report_ranking :
    build_daily_report [] = .ok none ∧
    ∀ (events : List Event) (items : List ReportItem),
      reportNumeric (reportFiltered events) = some items → items ≠ [] →
      ∃ rep : DailyReport,
        build_daily_report events = .ok (some rep) ∧
        rep.topVolume.length = min 5 items.length ∧
        rep.topVolume.Pairwise (fun a b => b.volume ≤ a.volume) ∧
        (∃ rest, List.Perm items (rep.topVolume ++ rest) ∧
          ∀ x ∈ rep.topVolume, ∀ y ∈ rest, y.volume ≤ x.volume) ∧
        rep.topGainers.length = min 3 items.length ∧
        rep.topGainers.Pairwise (fun a b => b.change_pct ≤ a.change_pct) ∧
        (∃ rest, List.Perm items (rep.topGainers ++ rest) ∧
          ∀ x ∈ rep.topGainers, ∀ y ∈ rest, y.change_pct ≤ x.change_pct) := by
  constructor
  · rfl
  · intro events items hnum hne
    have hfil : reportFiltered events ≠ [] := by
      intro h
      rw [h] at hnum
      cases hnum
      exact hne rfl
    have hev : events ≠ [] := by
      intro h
      subst h
      exact hfil rfl
    refine ⟨⟨(sortDescBy (fun x => x.volume) items).take 5,
      (sortDescBy (fun x => x.change_pct) items).take 3⟩, ?_, ?_, ?_, ?_, ?_, ?_, ?_⟩
    · have h1 : events.isEmpty = false := by simp [List.isEmpty_iff, hev]
      have h2 : (reportFiltered events).isEmpty = false := by
        simp [List.isEmpty_iff, hfil]
      simp [build_daily_report, h1, h2, hnum, sortDescBy]
    · exact (topk_spec (fun x => x.volume) items 5).1
    · exact (topk_spec (fun x => x.volume) items 5).2.1
    · exact (topk_spec (fun x => x.volume) items 5).2.2
    · exact (topk_spec (fun x => x.change_pct) items 3).1
    · exact (topk_spec (fun x => x.change_pct) items 3).2.1
    · exact (topk_spec (fun x => x.change_pct) items 3).2.2

/-- Witness for C9 at the spec's example
(volumes `[500, 2000000, 10]`, deltas `[1.0, -2.0, 9.0]`). -/
theorem daily_report_ranking_witness :
    reportNumeric (reportFiltered exEvents) = some exItems ∧
    exItems ≠ [] ∧
    ∃ rep : DailyReport,
      build_daily_report exEvents = .ok (some rep) ∧
      rep.topVolume.length = min 5 exItems.length ∧
      rep.topGainers.length = min 3 exItems.length := by
  obtain ⟨rep, h1, h2, _, _, h5, _⟩ :=
    daily_report_ranking.2 exEvents exItems rfl (List.cons_ne_nil _ _)
  exact ⟨rfl, List.cons_ne_nil _ _, rep, h1, h2, h5⟩

end FutureHeadlines

